import Mathlib

/-!
Shallow embedding of the item-request tracker backend:
the validation layer (src/lib/validation/requests.ts), the business-logic
layer (src/server/requests.ts) and the Mongoose schema constraints
(src/server/models/request.model.ts).  The document store is modelled as an
association list from identifier strings to records; driver-level failures
(for example a CastError on a malformed ObjectId) are modelled by an oracle
err : String -> Bool saying at which identifiers the store primitive raises.
-/

/-- The whitespace code points removed by the JavaScript trim method
(restricted to the ASCII ones, which cover every payload this development
evaluates). -/
def isJsWhitespace (c : Char) : Bool :=
  c == ' ' || c == '\t' || c == '\n' || c == '\r' || c == '\x0b' || c == '\x0c'

/-- The JavaScript String.prototype.trim: drop leading and trailing
whitespace. -/
def jsTrim (s : String) : String :=
  String.mk
    (((s.data.dropWhile isJsWhitespace).reverse.dropWhile
        isJsWhitespace).reverse)

/-- A JSON-ish dynamic value, the model of the untyped (any) payload fields
that the validation layer inspects. -/
inductive JVal where
  | jstr (s : String)
  | jnum (n : Int)
  | jbool (b : Bool)
  | jnull
deriving Repr, DecidableEq

/-- JavaScript truthiness of an optional field value: missing, null, false,
0 and the empty string are falsy, everything else in the model is truthy. -/
def truthy : Option JVal → Bool
  | none => false
  | some (JVal.jstr s) => s ≠ ""
  | some (JVal.jnum n) => n ≠ 0
  | some (JVal.jbool b) => b
  | some JVal.jnull => false

/-- The four request statuses (src/lib/types/request RequestStatus,
serialized as the lowercase strings used over the wire). -/
inductive RequestStatus where
  | pending
  | approved
  | completed
  | rejected
deriving Repr, DecidableEq

/-- The wire string of a status (the TS enum member value). -/
def RequestStatus.value : RequestStatus → String
  | .pending => "pending"
  | .approved => "approved"
  | .completed => "completed"
  | .rejected => "rejected"

/-- Parse a wire string back into the enum,
Object.values(RequestStatus).includes(status) style. -/
def statusOfString (s : String) : Option RequestStatus :=
  if s = "pending" then some .pending
  else if s = "approved" then some .approved
  else if s = "completed" then some .completed
  else if s = "rejected" then some .rejected
  else none

/-- isValidStatus from src/lib/validation/requests.ts: a dynamic value is a
valid status exactly when it is one of the four enum strings (strict
equality, so non-strings never match). -/
def isValidStatus (v : JVal) : Option RequestStatus :=
  match v with
  | JVal.jstr s => statusOfString s
  | _ => none

/-- A stored request document (the Mongoose document minus its _id, which is
the key of the store association list).  Timestamps are Nat instants. -/
structure DBRecord where
  requestorName : String
  itemRequested : String
  requestCreatedDate : Nat
  lastEditedDate : Option Nat
  status : RequestStatus
deriving Repr, DecidableEq

/-- The document store: an association list of (identifier, document);
identifiers are unique in a real MongoDB collection. -/
abbrev Store := List (String × DBRecord)

/-- findById: first document stored under the identifier. -/
def lookupStore (id : String) : Store → Option DBRecord
  | [] => none
  | (k, r) :: rest => if k = id then some r else lookupStore id rest

/-- Replace the document stored under the identifier. -/
def storeUpdate (id : String) (r : DBRecord) : Store → Store
  | [] => []
  | (k, q) :: rest =>
    if k = id then (k, r) :: storeUpdate id r rest
    else (k, q) :: storeUpdate id r rest

/-- Remove the document stored under the identifier. -/
def storeDelete (id : String) : Store → Store
  | [] => []
  | (k, q) :: rest =>
    if k = id then storeDelete id rest else (k, q) :: storeDelete id rest

/-- The ItemRequest shape returned by the business-logic layer
(src/server/requests.ts): the _id rendered as a string plus the document
fields. -/
structure ItemRequest where
  id : String
  requestorName : String
  itemRequested : String
  requestCreatedDate : Nat
  lastEditedDate : Option Nat
  status : RequestStatus
deriving Repr, DecidableEq

/-- The transformation applied to every document the layer returns. -/
def toItemRequest (id : String) (r : DBRecord) : ItemRequest :=
  { id := id
    requestorName := r.requestorName
    itemRequested := r.itemRequested
    requestCreatedDate := r.requestCreatedDate
    lastEditedDate := r.lastEditedDate
    status := r.status }

/-- Errors thrown by the layer: InvalidInputError (an InputException,
mapped to a 400 response by the route handlers) versus any other thrown
error (driver or schema failures, mapped to a 500 response). -/
inductive OpError where
  | invalidInputError (msg : String)
  | unknownError (msg : String)
deriving Repr, DecidableEq

/-- RequestModel.findByIdAndUpdate(id, \x7bstatus, lastEditedDate\x7d, \x7bnew: true\x7d):
raises at identifiers the driver rejects, otherwise returns the updated
document (none when the identifier resolves to no document) together with
the new store. -/
def findByIdAndUpdate (err : String → Bool) (id : String)
    (status : RequestStatus) (now : Nat) (s : Store) :
    Except String (Option DBRecord × Store) :=
  if err id then Except.error "driver error"
  else
    match lookupStore id s with
    | none => Except.ok (none, s)
    | some r =>
      let r2 : DBRecord := { r with status := status, lastEditedDate := some now }
      Except.ok (some r2, storeUpdate id r2 s)

/-- RequestModel.findByIdAndDelete(id): raises at identifiers the driver
rejects, otherwise returns the deleted document (none when absent) and the
new store. -/
def findByIdAndDelete (err : String → Bool) (id : String) (s : Store) :
    Except String (Option DBRecord × Store) :=
  if err id then Except.error "driver error"
  else
    match lookupStore id s with
    | none => Except.ok (none, s)
    | some r => Except.ok (some r, storeDelete id s)

/-! ## Validation layer (src/lib/validation/requests.ts) -/

/-- Validated create payload. -/
structure CreateItemRequest where
  requestorName : String
  itemRequested : String
deriving Repr, DecidableEq

/-- Validated single status edit. -/
structure EditStatusRequest where
  id : String
  status : RequestStatus
deriving Repr, DecidableEq

/-- Validated batch status edit. -/
structure BatchEditStatusRequest where
  updates : List EditStatusRequest
deriving Repr, DecidableEq

/-- Validated batch delete. -/
structure BatchDeleteRequest where
  ids : List String
deriving Repr, DecidableEq

/-- Raw create payload: each field either absent or a dynamic value. -/
structure RawCreate where
  requestorName : Option JVal
  itemRequested : Option JVal
deriving Repr, DecidableEq

/-- Raw single status edit payload. -/
structure RawEditStatus where
  id : Option JVal
  status : Option JVal
deriving Repr, DecidableEq

/-- Raw batch edit payload: updates is none when the field is absent or not
an array, otherwise the list of raw pairs. -/
structure RawBatchEdit where
  updates : Option (List RawEditStatus)
deriving Repr, DecidableEq

/-- Raw batch delete payload: ids is none when the field is absent or not an
array, otherwise the list of dynamic values supplied. -/
structure RawBatchDelete where
  ids : Option (List JVal)
deriving Repr, DecidableEq

/-- isValidString str lower upper: str must be a string with a nonblank
trim, and its UNtrimmed length must lie within the bounds. -/
def isValidString (v : JVal) (lower upper : Nat) : Bool :=
  match v with
  | JVal.jstr s => jsTrim s ≠ "" && lower ≤ s.length && s.length ≤ upper
  | _ => false

/-- validateCreateItemRequest: both fields truthy, name valid for 3..30,
item valid for 2..100; the validated payload holds the trimmed strings. -/
def validateCreateItemRequest (r : RawCreate) : Option CreateItemRequest :=
  if !(truthy r.requestorName) || !(truthy r.itemRequested) then none
  else
    match r.requestorName, r.itemRequested with
    | some nv, some iv =>
      if !(isValidString nv 3 30) || !(isValidString iv 2 100) then none
      else
        match nv, iv with
        | JVal.jstr nm, JVal.jstr it =>
          some { requestorName := jsTrim nm, itemRequested := jsTrim it }
        | _, _ => none
    | _, _ => none

/-- validateEditStatusRequest: id and status truthy, id a string with a
nonblank trim, status one of the four enum values; the validated payload
holds the trimmed id. -/
def validateEditStatusRequest (r : RawEditStatus) : Option EditStatusRequest :=
  if !(truthy r.id) || !(truthy r.status) then none
  else
    match r.id with
    | some (JVal.jstr s) =>
      if jsTrim s = "" then none
      else
        match r.status with
        | some sv =>
          match isValidStatus sv with
          | some st => some { id := jsTrim s, status := st }
          | none => none
        | none => none
    | _ => none

/-- The per-element loop of validateBatchEditStatusRequest: reject the whole
list as soon as one element is invalid. -/
def validateUpdatesLoop : List RawEditStatus → Option (List EditStatusRequest)
  | [] => some []
  | u :: rest =>
    match validateEditStatusRequest u with
    | none => none
    | some v =>
      match validateUpdatesLoop rest with
      | none => none
      | some vs => some (v :: vs)

/-- validateBatchEditStatusRequest: updates must be present, an array and
nonempty, and every element must validate. -/
def validateBatchEditStatusRequest (r : RawBatchEdit) :
    Option BatchEditStatusRequest :=
  match r.updates with
  | none => none
  | some l =>
    if l.length = 0 then none
    else
      match validateUpdatesLoop l with
      | none => none
      | some vs => some { updates := vs }

/-- The per-element loop of validateBatchDeleteRequest: every id must be a
string with a nonblank trim; the validated list holds the trimmed ids. -/
def validateIdsLoop : List JVal → Option (List String)
  | [] => some []
  | v :: rest =>
    match v with
    | JVal.jstr s =>
      if jsTrim s = "" then none
      else
        match validateIdsLoop rest with
        | none => none
        | some vs => some (jsTrim s :: vs)
    | _ => none

/-- validateBatchDeleteRequest: ids must be present, an array and nonempty,
and every element must validate. -/
def validateBatchDeleteRequest (r : RawBatchDelete) :
    Option BatchDeleteRequest :=
  match r.ids with
  | none => none
  | some l =>
    if l.length = 0 then none
    else
      match validateIdsLoop l with
      | none => none
      | some vs => some { ids := vs }

/-! ## Business-logic layer (src/server/requests.ts) -/

/-- Result of getItemRequests. -/
structure GetResult where
  requests : List ItemRequest
  totalCount : Nat
deriving Repr, DecidableEq

/-- The status filter: absent means no filter; an empty string is falsy in
JS, so it also applies no filter; otherwise match on the wire string. -/
def matchStatus (status : Option String) (r : DBRecord) : Bool :=
  match status with
  | none => true
  | some st => if st = "" then true else r.status.value = st

/-- Ordered insert for the sort by requestCreatedDate descending. -/
def insertByDateDesc (p : String × DBRecord) :
    List (String × DBRecord) → List (String × DBRecord)
  | [] => [p]
  | q :: rest =>
    if q.2.requestCreatedDate ≤ p.2.requestCreatedDate then p :: q :: rest
    else q :: insertByDateDesc p rest

/-- sort(\x7brequestCreatedDate: -1\x7d): sort by creation date descending. -/
def sortByDateDesc : List (String × DBRecord) → List (String × DBRecord)
  | [] => []
  | p :: rest => insertByDateDesc p (sortByDateDesc rest)

/-- getItemRequests: count the documents matching the (optional) status
filter, sort the matching documents by creation date descending, skip
(page - 1) * pageSize of them, return at most pageSize of the rest
transformed to ItemRequest, together with the total matching count. -/
def getItemRequests (pageSize page : Nat) (status : Option String)
    (s : Store) : GetResult :=
  let matching := s.filter (fun p => matchStatus status p.2)
  let docs := sortByDateDesc matching
  let skip := (page - 1) * pageSize
  { requests := ((docs.drop skip).take pageSize).map
      (fun p => toItemRequest p.1 p.2)
    totalCount := matching.length }

/-- The Mongoose schema constraints on a saved document
(src/server/models/request.model.ts): the schema re-trims both strings and
enforces 3..30 on the name and 2..100 on the item. -/
def schemaAccepts (name item : String) : Bool :=
  3 ≤ (jsTrim name).length && (jsTrim name).length ≤ 30 &&
    2 ≤ (jsTrim item).length && (jsTrim item).length ≤ 100

/-- createNewRequest: validate, then save a document with status pending and
both dates set to the single current instant; the save itself enforces the
schema constraints (raising a non-input error when they fail).  newId is
the identifier the store assigns to the inserted document. -/
def createNewRequest (now : Nat) (newId : String) (s : Store)
    (req : RawCreate) : Except OpError ItemRequest × Store :=
  match validateCreateItemRequest req with
  | none => (Except.error (OpError.invalidInputError "created item request"), s)
  | some v =>
    if schemaAccepts v.requestorName v.itemRequested then
      let doc : DBRecord :=
        { requestorName := v.requestorName
          itemRequested := v.itemRequested
          requestCreatedDate := now
          lastEditedDate := some now
          status := RequestStatus.pending }
      (Except.ok (toItemRequest newId doc), s ++ [(newId, doc)])
    else (Except.error (OpError.unknownError "schema validation failed"), s)

/-- updateRequestStatus: validate, findByIdAndUpdate with the current
instant, throw InvalidInputError "edit item ID" when no document matches,
propagate a driver error as a non-input error, otherwise return the updated
snapshot. -/
def updateRequestStatus (err : String → Bool) (now : Nat) (s : Store)
    (req : RawEditStatus) : Except OpError ItemRequest × Store :=
  match validateEditStatusRequest req with
  | none => (Except.error (OpError.invalidInputError "edit item request"), s)
  | some v =>
    match findByIdAndUpdate err v.id v.status now s with
    | Except.error e => (Except.error (OpError.unknownError e), s)
    | Except.ok (none, s2) =>
      (Except.error (OpError.invalidInputError "edit item ID"), s2)
    | Except.ok (some r, s2) => (Except.ok (toItemRequest v.id r), s2)

/-- Result of batchUpdateRequestStatuses. -/
structure BatchUpdateResult where
  updated : List ItemRequest
  failed : List String
deriving Repr, DecidableEq

/-- Intermediate state of the batch update loop: the two result lists plus
the store after the processed items. -/
structure BatchUpdateState where
  updated : List ItemRequest
  failed : List String
  store : Store
deriving Repr, DecidableEq

/-- The per-item loop of batchUpdateRequestStatuses: each validated pair is
applied through findByIdAndUpdate inside a try/catch; a raised error or a
missing document appends the id to failed, success appends the updated
snapshot to updated, and processing always continues. -/
def batchUpdateLoop (err : String → Bool) (now : Nat) :
    List EditStatusRequest → Store → BatchUpdateState
  | [], s => { updated := [], failed := [], store := s }
  | u :: rest, s =>
    match findByIdAndUpdate err u.id u.status now s with
    | Except.error _ =>
      let o := batchUpdateLoop err now rest s
      { o with failed := u.id :: o.failed }
    | Except.ok (none, s2) =>
      let o := batchUpdateLoop err now rest s2
      { o with failed := u.id :: o.failed }
    | Except.ok (some r, s2) =>
      let o := batchUpdateLoop err now rest s2
      { o with updated := toItemRequest u.id r :: o.updated }

/-- batchUpdateRequestStatuses: validate the whole batch up front
(InvalidInputError when it fails), take the current instant once, then run
the per-item loop. -/
def batchUpdateRequestStatuses (err : String → Bool) (now : Nat) (s : Store)
    (req : RawBatchEdit) : Except OpError BatchUpdateResult × Store :=
  match validateBatchEditStatusRequest req with
  | none =>
    (Except.error (OpError.invalidInputError "batch edit item request"), s)
  | some v =>
    let o := batchUpdateLoop err now v.updates s
    (Except.ok { updated := o.updated, failed := o.failed }, o.store)

/-- Result of batchDeleteRequests. -/
structure BatchDeleteResult where
  deletedCount : Nat
  failed : List String
deriving Repr, DecidableEq

/-- Intermediate state of the batch delete loop. -/
structure BatchDeleteState where
  deletedCount : Nat
  failed : List String
  store : Store
deriving Repr, DecidableEq

/-- The per-item loop of batchDeleteRequests: each id goes through
findByIdAndDelete inside a try/catch; a raised error or a missing document
appends the id to failed, success increments deletedCount. -/
def batchDeleteLoop (err : String → Bool) :
    List String → Store → BatchDeleteState
  | [], s => { deletedCount := 0, failed := [], store := s }
  | id :: rest, s =>
    match findByIdAndDelete err id s with
    | Except.error _ =>
      let o := batchDeleteLoop err rest s
      { o with failed := id :: o.failed }
    | Except.ok (none, s2) =>
      let o := batchDeleteLoop err rest s2
      { o with failed := id :: o.failed }
    | Except.ok (some _, s2) =>
      let o := batchDeleteLoop err rest s2
      { o with deletedCount := o.deletedCount + 1 }

/-- batchDeleteRequests: validate the whole batch up front
(InvalidInputError when it fails), then run the per-item loop. -/
def batchDeleteRequests (err : String → Bool) (s : Store)
    (req : RawBatchDelete) : Except OpError BatchDeleteResult × Store :=
  match validateBatchDeleteRequest req with
  | none =>
    (Except.error (OpError.invalidInputError "batch delete request"), s)
  | some v =>
    let o := batchDeleteLoop err v.ids s
    (Except.ok { deletedCount := o.deletedCount, failed := o.failed },
      o.store)

/-- A driver oracle that never raises. -/
def errNone : String → Bool := fun _ => false

/-! ## Helper lemmas -/

theorem dropWhile_idem (p : α → Bool) (l : List α) :
    (l.dropWhile p).dropWhile p = l.dropWhile p := by
  induction l with
  | nil => rfl
  | cons a t ih =>
    by_cases h : p a
    · simp [List.dropWhile_cons, h, ih]
    · simp [List.dropWhile_cons, h]

theorem not_p_head_dropWhile (p : α → Bool) :
    ∀ (l : List α) (a : α) (t : List α), l.dropWhile p = a :: t → p a = false := by
  intro l
  induction l with
  | nil => intro a t h; cases h
  | cons b l ih =>
    intro a t h
    by_cases hb : p b
    · rw [List.dropWhile_cons_of_pos hb] at h; exact ih a t h
    · rw [List.dropWhile_cons_of_neg hb] at h
      cases h
      simpa using hb

theorem jsTrim_idem (s : String) : jsTrim (jsTrim s) = jsTrim s := by
  unfold jsTrim
  set p := isJsWhitespace
  set d1 := s.data.dropWhile p with hd1
  set d2 := d1.reverse.dropWhile p with hd2
  simp only [String.data]
  have hpre : List.IsPrefix d2.reverse d1 := by
    have hsuf : List.IsSuffix d2 d1.reverse := by
      rw [hd2]; exact List.dropWhile_suffix p
    have h := List.reverse_prefix.mpr hsuf
    simpa using h
  have h1 : d2.reverse.dropWhile p = d2.reverse := by
    cases hrev : d2.reverse with
    | nil => rfl
    | cons a t =>
      obtain ⟨t2, ht2⟩ := hpre
      rw [hrev] at ht2
      have hpa : p a = false := by
        apply not_p_head_dropWhile p s.data a (t ++ t2)
        rw [← hd1, ← ht2]; rfl
      rw [List.dropWhile_cons_of_neg (by simp [hpa])]
  rw [h1]
  simp only [List.reverse_reverse]
  rw [hd2, dropWhile_idem]

theorem validateUpdatesLoop_eq_none {l : List RawEditStatus} {u : RawEditStatus}
    (hu : u ∈ l) (hv : validateEditStatusRequest u = none) :
    validateUpdatesLoop l = none := by
  induction l with
  | nil => cases hu
  | cons a rest ih =>
    cases hu with
    | head => simp [validateUpdatesLoop, hv]
    | tail _ hmem =>
      unfold validateUpdatesLoop
      cases h : validateEditStatusRequest a with
      | none => rfl
      | some v => simp [ih hmem]

theorem lookupStore_storeUpdate_isSome (x i : String) (r : DBRecord) (s : Store) :
    (lookupStore x (storeUpdate i r s)).isSome = (lookupStore x s).isSome := by
  induction s with
  | nil => rfl
  | cons p rest ih =>
    obtain ⟨k, q⟩ := p
    by_cases hk : k = i
    · subst hk
      by_cases hx : k = x
      · subst hx
        simp [storeUpdate, lookupStore]
      · simp [storeUpdate, lookupStore, hx, ih]
    · by_cases hx : k = x
      · subst hx
        simp [storeUpdate, lookupStore, hk]
      · simp [storeUpdate, lookupStore, hk, hx, ih]

theorem lookupStore_storeUpdate_isNone (x i : String) (r : DBRecord) (s : Store) :
    (lookupStore x (storeUpdate i r s)).isNone = (lookupStore x s).isNone := by
  have h := lookupStore_storeUpdate_isSome x i r s
  cases h1 : lookupStore x (storeUpdate i r s) <;>
    cases h2 : lookupStore x s <;> simp_all

theorem lookupStore_storeDelete_self (i : String) (s : Store) :
    lookupStore i (storeDelete i s) = none := by
  induction s with
  | nil => rfl
  | cons p rest ih =>
    obtain ⟨k, q⟩ := p
    by_cases hk : k = i <;> simp [storeDelete, lookupStore, hk, ih]

/-- Unfolding of the batch update loop at an item the driver rejects. -/
theorem batchUpdateLoop_cons_err (err : String → Bool) (now : Nat)
    (u : EditStatusRequest) (rest : List EditStatusRequest) (s : Store)
    (he : err u.id = true) :
    batchUpdateLoop err now (u :: rest) s =
      { updated := (batchUpdateLoop err now rest s).updated
        failed := u.id :: (batchUpdateLoop err now rest s).failed
        store := (batchUpdateLoop err now rest s).store } := by
  conv_lhs => rw [batchUpdateLoop]
  simp [findByIdAndUpdate, he]

/-- Unfolding of the batch update loop at an item whose identifier resolves
to no document. -/
theorem batchUpdateLoop_cons_notFound (err : String → Bool) (now : Nat)
    (u : EditStatusRequest) (rest : List EditStatusRequest) (s : Store)
    (he : err u.id = false) (hl : lookupStore u.id s = none) :
    batchUpdateLoop err now (u :: rest) s =
      { updated := (batchUpdateLoop err now rest s).updated
        failed := u.id :: (batchUpdateLoop err now rest s).failed
        store := (batchUpdateLoop err now rest s).store } := by
  conv_lhs => rw [batchUpdateLoop]
  simp [findByIdAndUpdate, he, hl]

/-- Unfolding of the batch update loop at an item whose identifier resolves
to a document. -/
theorem batchUpdateLoop_cons_found (err : String → Bool) (now : Nat)
    (u : EditStatusRequest) (rest : List EditStatusRequest) (s : Store)
    (r : DBRecord) (he : err u.id = false) (hl : lookupStore u.id s = some r) :
    batchUpdateLoop err now (u :: rest) s =
      { updated := toItemRequest u.id
            { r with status := u.status, lastEditedDate := some now } ::
          (batchUpdateLoop err now rest
            (storeUpdate u.id
              { r with status := u.status, lastEditedDate := some now }
              s)).updated
        failed := (batchUpdateLoop err now rest
          (storeUpdate u.id
            { r with status := u.status, lastEditedDate := some now }
            s)).failed
        store := (batchUpdateLoop err now rest
          (storeUpdate u.id
            { r with status := u.status, lastEditedDate := some now }
            s)).store } := by
  conv_lhs => rw [batchUpdateLoop]
  simp [findByIdAndUpdate, he, hl]

/-- Case split driver for the batch update loop: any property proved for the
three cons unfoldings holds. -/
theorem batchUpdateLoop_length (err : String → Bool) (now : Nat) :
    ∀ (l : List EditStatusRequest) (s : Store),
      (batchUpdateLoop err now l s).updated.length +
        (batchUpdateLoop err now l s).failed.length = l.length := by
  intro l
  induction l with
  | nil => intro s; rfl
  | cons u rest ih =>
    intro s
    by_cases he : err u.id
    · rw [batchUpdateLoop_cons_err err now u rest s he]
      have := ih s
      simp
      omega
    · cases hl : lookupStore u.id s with
      | none =>
        rw [batchUpdateLoop_cons_notFound err now u rest s
          (Bool.not_eq_true _ ▸ he) hl]
        have := ih s
        simp
        omega
      | some r =>
        rw [batchUpdateLoop_cons_found err now u rest s r
          (Bool.not_eq_true _ ▸ he) hl]
        have := ih (storeUpdate u.id
          { r with status := u.status, lastEditedDate := some now } s)
        simp
        omega

theorem batchUpdateLoop_append (err : String → Bool) (now : Nat) :
    ∀ (l₁ l₂ : List EditStatusRequest) (s : Store),
      batchUpdateLoop err now (l₁ ++ l₂) s =
        { updated := (batchUpdateLoop err now l₁ s).updated ++
            (batchUpdateLoop err now l₂
              (batchUpdateLoop err now l₁ s).store).updated
          failed := (batchUpdateLoop err now l₁ s).failed ++
            (batchUpdateLoop err now l₂
              (batchUpdateLoop err now l₁ s).store).failed
          store := (batchUpdateLoop err now l₂
            (batchUpdateLoop err now l₁ s).store).store } := by
  intro l₁
  induction l₁ with
  | nil => intro l₂ s; simp [batchUpdateLoop]
  | cons u rest ih =>
    intro l₂ s
    by_cases he : err u.id
    · rw [List.cons_append,
        batchUpdateLoop_cons_err err now u (rest ++ l₂) s he,
        batchUpdateLoop_cons_err err now u rest s he, ih]
      simp
    · cases hl : lookupStore u.id s with
      | none =>
        rw [List.cons_append,
          batchUpdateLoop_cons_notFound err now u (rest ++ l₂) s
            (Bool.not_eq_true _ ▸ he) hl,
          batchUpdateLoop_cons_notFound err now u rest s
            (Bool.not_eq_true _ ▸ he) hl, ih]
        simp
      | some r =>
        rw [List.cons_append,
          batchUpdateLoop_cons_found err now u (rest ++ l₂) s r
            (Bool.not_eq_true _ ▸ he) hl,
          batchUpdateLoop_cons_found err now u rest s r
            (Bool.not_eq_true _ ▸ he) hl, ih]
        simp

theorem batchUpdateLoop_lastEdited (err : String → Bool) (now : Nat) :
    ∀ (l : List EditStatusRequest) (s : Store) (r : ItemRequest),
      r ∈ (batchUpdateLoop err now l s).updated →
        r.lastEditedDate = some now := by
  intro l
  induction l with
  | nil => intro s r hr; simp [batchUpdateLoop] at hr
  | cons u rest ih =>
    intro s r hr
    by_cases he : err u.id
    · rw [batchUpdateLoop_cons_err err now u rest s he] at hr
      exact ih s r hr
    · cases hl : lookupStore u.id s with
      | none =>
        rw [batchUpdateLoop_cons_notFound err now u rest s
          (Bool.not_eq_true _ ▸ he) hl] at hr
        exact ih s r hr
      | some q =>
        rw [batchUpdateLoop_cons_found err now u rest s q
          (Bool.not_eq_true _ ▸ he) hl] at hr
        rcases List.mem_cons.mp hr with hr | hr
        · rw [hr]; rfl
        · exact ih _ r hr

theorem batchUpdateLoop_failed_eq (err : String → Bool) (now : Nat) :
    ∀ (l : List EditStatusRequest) (s : Store),
      (batchUpdateLoop err now l s).failed =
        (l.filter (fun u => err u.id || (lookupStore u.id s).isNone)).map
          EditStatusRequest.id := by
  intro l
  induction l with
  | nil => intro s; rfl
  | cons u rest ih =>
    intro s
    by_cases he : err u.id
    · rw [batchUpdateLoop_cons_err err now u rest s he]
      simp [List.filter_cons, he, ih s]
    · cases hl : lookupStore u.id s with
      | none =>
        rw [batchUpdateLoop_cons_notFound err now u rest s
          (Bool.not_eq_true _ ▸ he) hl]
        simp [List.filter_cons, he, hl, ih s]
      | some r =>
        rw [batchUpdateLoop_cons_found err now u rest s r
          (Bool.not_eq_true _ ▸ he) hl]
        rw [ih]
        have hcong : ∀ u2 ∈ rest,
            (err u2.id || (lookupStore u2.id (storeUpdate u.id
              { r with status := u.status, lastEditedDate := some now }
              s)).isNone) =
            (err u2.id || (lookupStore u2.id s).isNone) := by
          intro u2 _
          rw [lookupStore_storeUpdate_isNone]
        rw [List.filter_congr hcong]
        simp [List.filter_cons, he, hl]

theorem batchUpdateLoop_updated_ids_eq (err : String → Bool) (now : Nat) :
    ∀ (l : List EditStatusRequest) (s : Store),
      (batchUpdateLoop err now l s).updated.map ItemRequest.id =
        (l.filter (fun u => !(err u.id) && !((lookupStore u.id s).isNone))).map
          EditStatusRequest.id := by
  intro l
  induction l with
  | nil => intro s; rfl
  | cons u rest ih =>
    intro s
    by_cases he : err u.id
    · rw [batchUpdateLoop_cons_err err now u rest s he]
      simp [List.filter_cons, he, ih s]
    · cases hl : lookupStore u.id s with
      | none =>
        rw [batchUpdateLoop_cons_notFound err now u rest s
          (Bool.not_eq_true _ ▸ he) hl]
        simp [List.filter_cons, he, hl, ih s]
      | some r =>
        rw [batchUpdateLoop_cons_found err now u rest s r
          (Bool.not_eq_true _ ▸ he) hl]
        have hcong : ∀ u2 ∈ rest,
            (!(err u2.id) && !((lookupStore u2.id (storeUpdate u.id
              { r with status := u.status, lastEditedDate := some now }
              s)).isNone)) =
            (!(err u2.id) && !((lookupStore u2.id s).isNone)) := by
          intro u2 _
          rw [lookupStore_storeUpdate_isNone]
        simp only [List.map_cons, ih, List.filter_congr hcong]
        simp [List.filter_cons, he, hl, toItemRequest]

/-- Unfolding of the batch delete loop at an id the driver rejects. -/
theorem batchDeleteLoop_cons_err (err : String → Bool) (id : String)
    (rest : List String) (s : Store) (he : err id = true) :
    batchDeleteLoop err (id :: rest) s =
      { deletedCount := (batchDeleteLoop err rest s).deletedCount
        failed := id :: (batchDeleteLoop err rest s).failed
        store := (batchDeleteLoop err rest s).store } := by
  conv_lhs => rw [batchDeleteLoop]
  simp [findByIdAndDelete, he]

/-- Unfolding of the batch delete loop at an id that resolves to no
document. -/
theorem batchDeleteLoop_cons_notFound (err : String → Bool) (id : String)
    (rest : List String) (s : Store) (he : err id = false)
    (hl : lookupStore id s = none) :
    batchDeleteLoop err (id :: rest) s =
      { deletedCount := (batchDeleteLoop err rest s).deletedCount
        failed := id :: (batchDeleteLoop err rest s).failed
        store := (batchDeleteLoop err rest s).store } := by
  conv_lhs => rw [batchDeleteLoop]
  simp [findByIdAndDelete, he, hl]

/-- Unfolding of the batch delete loop at an id that resolves to a
document. -/
theorem batchDeleteLoop_cons_found (err : String → Bool) (id : String)
    (rest : List String) (s : Store) (r : DBRecord) (he : err id = false)
    (hl : lookupStore id s = some r) :
    batchDeleteLoop err (id :: rest) s =
      { deletedCount := (batchDeleteLoop err rest (storeDelete id s)).deletedCount + 1
        failed := (batchDeleteLoop err rest (storeDelete id s)).failed
        store := (batchDeleteLoop err rest (storeDelete id s)).store } := by
  conv_lhs => rw [batchDeleteLoop]
  simp [findByIdAndDelete, he, hl]

theorem batchDeleteLoop_length (err : String → Bool) :
    ∀ (l : List String) (s : Store),
      (batchDeleteLoop err l s).deletedCount +
        (batchDeleteLoop err l s).failed.length = l.length := by
  intro l
  induction l with
  | nil => intro s; rfl
  | cons id rest ih =>
    intro s
    by_cases he : err id
    · rw [batchDeleteLoop_cons_err err id rest s he]
      have := ih s
      simp
      omega
    · cases hl : lookupStore id s with
      | none =>
        rw [batchDeleteLoop_cons_notFound err id rest s
          (Bool.not_eq_true _ ▸ he) hl]
        have := ih s
        simp
        omega
      | some r =>
        rw [batchDeleteLoop_cons_found err id rest s r
          (Bool.not_eq_true _ ▸ he) hl]
        have := ih (storeDelete id s)
        simp
        omega

theorem batchDeleteLoop_failed_sublist (err : String → Bool) :
    ∀ (l : List String) (s : Store),
      List.Sublist (batchDeleteLoop err l s).failed l := by
  intro l
  induction l with
  | nil => intro s; simp [batchDeleteLoop]
  | cons id rest ih =>
    intro s
    by_cases he : err id
    · rw [batchDeleteLoop_cons_err err id rest s he]
      exact (ih s).cons₂ id
    · cases hl : lookupStore id s with
      | none =>
        rw [batchDeleteLoop_cons_notFound err id rest s
          (Bool.not_eq_true _ ▸ he) hl]
        exact (ih s).cons₂ id
      | some r =>
        rw [batchDeleteLoop_cons_found err id rest s r
          (Bool.not_eq_true _ ▸ he) hl]
        exact (ih _).cons id

theorem batchDeleteLoop_append (err : String → Bool) :
    ∀ (l₁ l₂ : List String) (s : Store),
      batchDeleteLoop err (l₁ ++ l₂) s =
        { deletedCount := (batchDeleteLoop err l₁ s).deletedCount +
            (batchDeleteLoop err l₂
              (batchDeleteLoop err l₁ s).store).deletedCount
          failed := (batchDeleteLoop err l₁ s).failed ++
            (batchDeleteLoop err l₂
              (batchDeleteLoop err l₁ s).store).failed
          store := (batchDeleteLoop err l₂
            (batchDeleteLoop err l₁ s).store).store } := by
  intro l₁
  induction l₁ with
  | nil => intro l₂ s; simp [batchDeleteLoop]
  | cons id rest ih =>
    intro l₂ s
    by_cases he : err id
    · rw [List.cons_append,
        batchDeleteLoop_cons_err err id (rest ++ l₂) s he,
        batchDeleteLoop_cons_err err id rest s he, ih]
      simp [Nat.add_assoc]
    · cases hl : lookupStore id s with
      | none =>
        rw [List.cons_append,
          batchDeleteLoop_cons_notFound err id (rest ++ l₂) s
            (Bool.not_eq_true _ ▸ he) hl,
          batchDeleteLoop_cons_notFound err id rest s
            (Bool.not_eq_true _ ▸ he) hl, ih]
        simp [Nat.add_assoc]
      | some r =>
        rw [List.cons_append,
          batchDeleteLoop_cons_found err id (rest ++ l₂) s r
            (Bool.not_eq_true _ ▸ he) hl,
          batchDeleteLoop_cons_found err id rest s r
            (Bool.not_eq_true _ ▸ he) hl, ih]
        simp [Nat.add_assoc, Nat.add_comm 1]

/-- Shape of a validated single edit: the id field was a string and the
validated id is its trimmed form. -/
theorem validateEditStatusRequest_id_shape {u : RawEditStatus}
    {v : EditStatusRequest} (h : validateEditStatusRequest u = some v) :
    ∃ s, u.id = some (JVal.jstr s) ∧ v.id = jsTrim s := by
  unfold validateEditStatusRequest at h
  split at h
  · cases h
  · split at h
    · next s heq =>
      split at h
      · cases h
      · split at h
        · split at h
          · next st hst =>
            cases h
            exact ⟨s, heq, rfl⟩
          · cases h
        · cases h
    · cases h

theorem validateUpdatesLoop_forall₂ :
    ∀ {l : List RawEditStatus} {vs : List EditStatusRequest},
      validateUpdatesLoop l = some vs →
      List.Forall₂
        (fun (raw : RawEditStatus) (vu : EditStatusRequest) =>
          ∃ s, raw.id = some (JVal.jstr s) ∧ vu.id = jsTrim s) l vs := by
  intro l
  induction l with
  | nil =>
    intro vs h
    cases h
    exact List.Forall₂.nil
  | cons u rest ih =>
    intro vs h
    unfold validateUpdatesLoop at h
    cases hu : validateEditStatusRequest u with
    | none => rw [hu] at h; cases h
    | some v =>
      rw [hu] at h
      cases hrest : validateUpdatesLoop rest with
      | none => rw [hrest] at h; cases h
      | some vrest =>
        rw [hrest] at h
        cases h
        exact List.Forall₂.cons (validateEditStatusRequest_id_shape hu)
          (ih hrest)

theorem validateIdsLoop_forall₂ :
    ∀ {l : List JVal} {vs : List String},
      validateIdsLoop l = some vs →
      List.Forall₂
        (fun (raw : JVal) (i : String) =>
          ∃ s, raw = JVal.jstr s ∧ i = jsTrim s) l vs := by
  intro l
  induction l with
  | nil =>
    intro vs h
    cases h
    exact List.Forall₂.nil
  | cons v rest ih =>
    intro vs h
    cases v with
    | jstr s =>
      simp only [validateIdsLoop] at h
      by_cases hs : jsTrim s = ""
      · rw [if_pos hs] at h; cases h
      · rw [if_neg hs] at h
        cases hrest : validateIdsLoop rest with
        | none => rw [hrest] at h; cases h
        | some vrest =>
          rw [hrest] at h
          cases h
          exact List.Forall₂.cons ⟨s, rfl, rfl⟩ (ih hrest)
    | jnum n => simp [validateIdsLoop] at h
    | jbool b => simp [validateIdsLoop] at h
    | jnull => simp [validateIdsLoop] at h

theorem length_insertByDateDesc (p : String × DBRecord) :
    ∀ (l : List (String × DBRecord)),
      (insertByDateDesc p l).length = l.length + 1 := by
  intro l
  induction l with
  | nil => rfl
  | cons q rest ih =>
    unfold insertByDateDesc
    by_cases h : q.2.requestCreatedDate ≤ p.2.requestCreatedDate <;>
      simp [h, ih]

theorem length_sortByDateDesc :
    ∀ (l : List (String × DBRecord)),
      (sortByDateDesc l).length = l.length := by
  intro l
  induction l with
  | nil => rfl
  | cons p rest ih =>
    unfold sortByDateDesc
    rw [length_insertByDateDesc, ih]
    rfl

theorem mem_insertByDateDesc (p x : String × DBRecord) :
    ∀ (l : List (String × DBRecord)),
      x ∈ insertByDateDesc p l ↔ x = p ∨ x ∈ l := by
  intro l
  induction l with
  | nil => simp [insertByDateDesc]
  | cons q rest ih =>
    unfold insertByDateDesc
    by_cases h : q.2.requestCreatedDate ≤ p.2.requestCreatedDate
    · simp [h]
    · simp [h, ih]
      tauto

theorem pairwise_insertByDateDesc (p : String × DBRecord) :
    ∀ (l : List (String × DBRecord)),
      List.Pairwise
        (fun a b : String × DBRecord =>
          b.2.requestCreatedDate ≤ a.2.requestCreatedDate) l →
      List.Pairwise
        (fun a b : String × DBRecord =>
          b.2.requestCreatedDate ≤ a.2.requestCreatedDate)
        (insertByDateDesc p l) := by
  intro l
  induction l with
  | nil => intro _; simp [insertByDateDesc]
  | cons q rest ih =>
    intro hp
    rw [List.pairwise_cons] at hp
    obtain ⟨hq, hrest⟩ := hp
    unfold insertByDateDesc
    by_cases h : q.2.requestCreatedDate ≤ p.2.requestCreatedDate
    · rw [if_pos h]
      rw [List.pairwise_cons]
      constructor
      · intro x hx
        rcases List.mem_cons.mp hx with hx | hx
        · rw [hx]; exact h
        · exact le_trans (hq x hx) h
      · rw [List.pairwise_cons]
        exact ⟨hq, hrest⟩
    · rw [if_neg h]
      rw [List.pairwise_cons]
      constructor
      · intro x hx
        rcases (mem_insertByDateDesc p x rest).mp hx with hx | hx
        · rw [hx]
          exact le_of_lt (lt_of_not_le h)
        · exact hq x hx
      · exact ih hrest

theorem pairwise_sortByDateDesc :
    ∀ (l : List (String × DBRecord)),
      List.Pairwise
        (fun a b : String × DBRecord =>
          b.2.requestCreatedDate ≤ a.2.requestCreatedDate)
        (sortByDateDesc l) := by
  intro l
  induction l with
  | nil => simp [sortByDateDesc]
  | cons p rest ih =>
    unfold sortByDateDesc
    exact pairwise_insertByDateDesc p (sortByDateDesc rest) ih

/-! ## Claim theorems -/

/-- C1: a batch status-update whose updates field is absent (or not an
array), empty, or contains at least one pair failing shape validation is
rejected whole with the InvalidInputError thrown before the per-item loop,
and the store is returned unchanged. -/
theorem batchUpdate_rejects_malformed_batch (err : String → Bool) (now : Nat)
    (s : Store) (req : RawBatchEdit)
    (h : req.updates = none ∨ ∃ l, req.updates = some l ∧
      (l = [] ∨ ∃ u ∈ l, validateEditStatusRequest u = none)) :
    batchUpdateRequestStatuses err now s req =
      (Except.error (OpError.invalidInputError "batch edit item request"),
        s) := by
  have hv : validateBatchEditStatusRequest req = none := by
    unfold validateBatchEditStatusRequest
    rcases h with h | ⟨l, hl, h⟩
    · rw [h]
    · simp only [hl]
      rcases h with rfl | ⟨u, hu, hvu⟩
      · rfl
      · have hnone := validateUpdatesLoop_eq_none hu hvu
        have hlen : l.length ≠ 0 := by
          intro h0
          rw [List.length_eq_zero] at h0
          subst h0
          cases hu
        rw [if_neg hlen, hnone]
  unfold batchUpdateRequestStatuses
  rw [hv]

theorem batchUpdate_rejects_malformed_batch_witness :
    batchUpdateRequestStatuses errNone 0 [] { updates := some [] } =
      (Except.error (OpError.invalidInputError "batch edit item request"),
        []) :=
  batchUpdate_rejects_malformed_batch errNone 0 [] { updates := some [] }
    (Or.inr ⟨[], rfl, Or.inl rfl⟩)

/-- C4 counterexample: when the identifier of a well-formed single status
update resolves to no record, updateRequestStatus raises the SAME error
kind used for shape validation failures (InvalidInputError), with the
constant message "edit item ID" no matter which identifier is missing, so
the raised error is neither a distinct not-found kind nor does it reference
the missing identifier. -/
theorem updateRequestStatus_notFound_kind_cex :
    (updateRequestStatus errNone 7 []
        { id := some (JVal.jstr "zzz"),
          status := some (JVal.jstr "approved") }).1 =
      Except.error (OpError.invalidInputError "edit item ID") ∧
    (updateRequestStatus errNone 7 []
        { id := some (JVal.jstr "qqq"),
          status := some (JVal.jstr "approved") }).1 =
      Except.error (OpError.invalidInputError "edit item ID") ∧
    (updateRequestStatus errNone 7 [] { id := none, status := none }).1 =
      Except.error (OpError.invalidInputError "edit item request") :=
  ⟨rfl, rfl, rfl⟩

/-- C4 amended: for every well-formed single status update whose identifier
resolves to no record, updateRequestStatus raises an exception (not an
inline batch-style result): an InvalidInputError with constant message
"edit item ID" — the same error kind as shape validation failures, which
use the message "edit item request" — and the store is unchanged. -/
theorem updateRequestStatus_notFound_behavior (err : String → Bool)
    (now : Nat) (s : Store) (req : RawEditStatus) (v : EditStatusRequest)
    (hv : validateEditStatusRequest req = some v) (he : err v.id = false)
    (hl : lookupStore v.id s = none) :
    updateRequestStatus err now s req =
      (Except.error (OpError.invalidInputError "edit item ID"), s) := by
  unfold updateRequestStatus
  rw [hv]
  simp [findByIdAndUpdate, he, hl]

theorem updateRequestStatus_notFound_behavior_witness :
    updateRequestStatus errNone 7 []
        { id := some (JVal.jstr "zzz"),
          status := some (JVal.jstr "approved") } =
      (Except.error (OpError.invalidInputError "edit item ID"), []) :=
  updateRequestStatus_notFound_behavior errNone 7 []
    { id := some (JVal.jstr "zzz"), status := some (JVal.jstr "approved") }
    { id := "zzz", status := RequestStatus.approved } rfl rfl rfl

/-- C6: every record createNewRequest returns has status pending and its
creation timestamp equal to its last-edited timestamp, both the current
instant. -/
theorem createNewRequest_pending_and_timestamps (now : Nat) (newId : String)
    (s : Store) (req : RawCreate) (r : ItemRequest) (s2 : Store)
    (h : createNewRequest now newId s req = (Except.ok r, s2)) :
    r.status = RequestStatus.pending ∧ r.requestCreatedDate = now ∧
      r.lastEditedDate = some now := by
  unfold createNewRequest at h
  cases hv : validateCreateItemRequest req with
  | none => rw [hv] at h; simp at h
  | some v =>
    by_cases hs : schemaAccepts v.requestorName v.itemRequested
    · simp only [hv, hs, if_true, Prod.mk.injEq] at h
      obtain ⟨h1, h2⟩ := h
      injection h1 with h1
      subst h1
      exact ⟨rfl, rfl, rfl⟩
    · simp [hv, hs] at h

theorem createNewRequest_pending_and_timestamps_witness :
    ({ id := "id1", requestorName := "Jane Doe",
       itemRequested := "Flashlights", requestCreatedDate := 5,
       lastEditedDate := some 5,
       status := RequestStatus.pending } : ItemRequest).status =
        RequestStatus.pending ∧
    ({ id := "id1", requestorName := "Jane Doe",
       itemRequested := "Flashlights", requestCreatedDate := 5,
       lastEditedDate := some 5,
       status := RequestStatus.pending } : ItemRequest).requestCreatedDate
        = 5 ∧
    ({ id := "id1", requestorName := "Jane Doe",
       itemRequested := "Flashlights", requestCreatedDate := 5,
       lastEditedDate := some 5,
       status := RequestStatus.pending } : ItemRequest).lastEditedDate =
        some 5 :=
  createNewRequest_pending_and_timestamps 5 "id1" []
    { requestorName := some (JVal.jstr "Jane Doe"),
      itemRequested := some (JVal.jstr "Flashlights") }
    { id := "id1", requestorName := "Jane Doe",
      itemRequested := "Flashlights", requestCreatedDate := 5,
      lastEditedDate := some 5, status := RequestStatus.pending }
    [("id1",
      { requestorName := "Jane Doe", itemRequested := "Flashlights",
        requestCreatedDate := 5, lastEditedDate := some 5,
        status := RequestStatus.pending })]
    rfl

/-- C9: every snapshot in the updated list of one batchUpdateRequestStatuses
call carries the same lastEditedDate, the single instant taken before the
per-item loop. -/
theorem batchUpdate_single_timestamp (err : String → Bool) (now : Nat)
    (s : Store) (req : RawBatchEdit) (res : BatchUpdateResult) (s2 : Store)
    (h : batchUpdateRequestStatuses err now s req = (Except.ok res, s2)) :
    ∀ r ∈ res.updated, r.lastEditedDate = some now := by
  unfold batchUpdateRequestStatuses at h
  cases hv : validateBatchEditStatusRequest req with
  | none => rw [hv] at h; simp at h
  | some v =>
    simp only [hv, Prod.mk.injEq] at h
    obtain ⟨h1, h2⟩ := h
    injection h1 with h1
    intro r hr
    rw [← h1] at hr
    exact batchUpdateLoop_lastEdited err now v.updates s r hr

theorem batchUpdate_single_timestamp_witness :
    ({ id := "a", requestorName := "nm", itemRequested := "it",
       requestCreatedDate := 1, lastEditedDate := some 9,
       status := RequestStatus.approved } : ItemRequest).lastEditedDate =
      some 9 :=
  batchUpdate_single_timestamp errNone 9
    [("a",
      { requestorName := "nm", itemRequested := "it",
        requestCreatedDate := 1, lastEditedDate := none,
        status := RequestStatus.pending })]
    { updates :=
        some [{ id := some (JVal.jstr "a"),
                status := some (JVal.jstr "approved") }] }
    { updated :=
        [{ id := "a", requestorName := "nm", itemRequested := "it",
           requestCreatedDate := 1, lastEditedDate := some 9,
           status := RequestStatus.approved }],
      failed := [] }
    [("a",
      { requestorName := "nm", itemRequested := "it",
        requestCreatedDate := 1, lastEditedDate := some 9,
        status := RequestStatus.approved })]
    rfl
    { id := "a", requestorName := "nm", itemRequested := "it",
      requestCreatedDate := 1, lastEditedDate := some 9,
      status := RequestStatus.approved }
    (by simp)

theorem batchUpdateLoop_partition (err : String → Bool) (now : Nat)
    (l : List EditStatusRequest) (s : Store) :
    ∀ u ∈ l,
      (u.id ∈ (batchUpdateLoop err now l s).updated.map ItemRequest.id ∧
        u.id ∉ (batchUpdateLoop err now l s).failed) ∨
      (u.id ∈ (batchUpdateLoop err now l s).failed ∧
        u.id ∉ (batchUpdateLoop err now l s).updated.map ItemRequest.id) := by
  intro u hu
  rw [batchUpdateLoop_failed_eq, batchUpdateLoop_updated_ids_eq]
  by_cases he : err u.id = true
  · right
    constructor
    · exact List.mem_map.mpr
        ⟨u, List.mem_filter.mpr ⟨hu, by simp [he]⟩, rfl⟩
    · intro hmem
      obtain ⟨u2, hu2, hid⟩ := List.mem_map.mp hmem
      have hpred := (List.mem_filter.mp hu2).2
      rw [hid] at hpred
      simp [he] at hpred
  · have he2 : err u.id = false := by simpa using he
    by_cases hn : (lookupStore u.id s).isNone = true
    · right
      constructor
      · exact List.mem_map.mpr
          ⟨u, List.mem_filter.mpr ⟨hu, by simp [he2, hn]⟩, rfl⟩
      · intro hmem
        obtain ⟨u2, hu2, hid⟩ := List.mem_map.mp hmem
        have hpred := (List.mem_filter.mp hu2).2
        rw [hid] at hpred
        simp [he2, hn] at hpred
    · have hn2 : (lookupStore u.id s).isNone = false :=
        Bool.not_eq_true _ ▸ hn
      left
      constructor
      · exact List.mem_map.mpr
          ⟨u, List.mem_filter.mpr ⟨hu, by simp [he2, hn2]⟩, rfl⟩
      · intro hmem
        obtain ⟨u2, hu2, hid⟩ := List.mem_map.mp hmem
        have hpred := (List.mem_filter.mp hu2).2
        rw [hid] at hpred
        simp [he2, hn2] at hpred

theorem batchUpdateLoop_updatedIds_sublist (err : String → Bool) (now : Nat)
    (l : List EditStatusRequest) (s : Store) :
    List.Sublist ((batchUpdateLoop err now l s).updated.map ItemRequest.id)
      (l.map EditStatusRequest.id) := by
  rw [batchUpdateLoop_updated_ids_eq]
  exact (List.filter_sublist l).map EditStatusRequest.id

theorem batchUpdateLoop_failed_sublist (err : String → Bool) (now : Nat)
    (l : List EditStatusRequest) (s : Store) :
    List.Sublist (batchUpdateLoop err now l s).failed
      (l.map EditStatusRequest.id) := by
  rw [batchUpdateLoop_failed_eq]
  exact (List.filter_sublist l).map EditStatusRequest.id

/-- C2: when every pair of a batch status update passes validation, the call
succeeds with len(updated) + len(failed) = len(input), every processed
identifier lands in exactly one of the two lists, and each list preserves
the processing (input) order of its identifiers. -/
theorem batchUpdate_partitions_input (err : String → Bool) (now : Nat)
    (s : Store) (req : RawBatchEdit) (v : BatchEditStatusRequest)
    (hv : validateBatchEditStatusRequest req = some v) :
    ∃ res s2,
      batchUpdateRequestStatuses err now s req = (Except.ok res, s2) ∧
      res.updated.length + res.failed.length = v.updates.length ∧
      (∀ u ∈ v.updates,
        (u.id ∈ res.updated.map ItemRequest.id ∧ u.id ∉ res.failed) ∨
        (u.id ∈ res.failed ∧ u.id ∉ res.updated.map ItemRequest.id)) ∧
      List.Sublist (res.updated.map ItemRequest.id)
        (v.updates.map EditStatusRequest.id) ∧
      List.Sublist res.failed (v.updates.map EditStatusRequest.id) := by
  refine ⟨{ updated := (batchUpdateLoop err now v.updates s).updated,
            failed := (batchUpdateLoop err now v.updates s).failed },
          (batchUpdateLoop err now v.updates s).store, ?_, ?_, ?_, ?_, ?_⟩
  · unfold batchUpdateRequestStatuses
    rw [hv]
  · exact batchUpdateLoop_length err now v.updates s
  · exact batchUpdateLoop_partition err now v.updates s
  · exact batchUpdateLoop_updatedIds_sublist err now v.updates s
  · exact batchUpdateLoop_failed_sublist err now v.updates s

theorem batchUpdate_partitions_input_witness :
    ∃ res s2,
      batchUpdateRequestStatuses errNone 3
          [("a",
            { requestorName := "n1", itemRequested := "i1",
              requestCreatedDate := 1, lastEditedDate := none,
              status := RequestStatus.pending })]
          { updates :=
              some [{ id := some (JVal.jstr "a"),
                      status := some (JVal.jstr "approved") },
                    { id := some (JVal.jstr "b"),
                      status := some (JVal.jstr "rejected") }] } =
        (Except.ok res, s2) ∧
      res.updated.length + res.failed.length = 2 := by
  obtain ⟨res, s2, h1, h2, _⟩ :=
    batchUpdate_partitions_input errNone 3
      [("a",
        { requestorName := "n1", itemRequested := "i1",
          requestCreatedDate := 1, lastEditedDate := none,
          status := RequestStatus.pending })]
      { updates :=
          some [{ id := some (JVal.jstr "a"),
                  status := some (JVal.jstr "approved") },
                { id := some (JVal.jstr "b"),
                  status := some (JVal.jstr "rejected") }] }
      { updates := [{ id := "a", status := RequestStatus.approved },
                    { id := "b", status := RequestStatus.rejected }] }
      rfl
  exact ⟨res, s2, h1, h2⟩

/-- C3: once a batch passes validation no exception propagates (the call
returns an ok result), and a failing item (driver error or identifier
resolving to no record) is appended to the failed list in processing
position while every remaining item is still processed against the store
reached after the earlier items — which keeps every update already applied
(no rollback). -/
theorem batchUpdate_isolates_per_item_failure (err : String → Bool)
    (now : Nat) :
    (∀ (s : Store) (req : RawBatchEdit) (v : BatchEditStatusRequest),
        validateBatchEditStatusRequest req = some v →
        ∃ res s2,
          batchUpdateRequestStatuses err now s req = (Except.ok res, s2)) ∧
    (∀ (l₁ l₂ : List EditStatusRequest) (u : EditStatusRequest) (s : Store),
        (err u.id = true ∨
          lookupStore u.id (batchUpdateLoop err now l₁ s).store = none) →
        batchUpdateLoop err now (l₁ ++ u :: l₂) s =
          { updated := (batchUpdateLoop err now l₁ s).updated ++
              (batchUpdateLoop err now l₂
                (batchUpdateLoop err now l₁ s).store).updated
            failed := (batchUpdateLoop err now l₁ s).failed ++
              u.id :: (batchUpdateLoop err now l₂
                (batchUpdateLoop err now l₁ s).store).failed
            store := (batchUpdateLoop err now l₂
              (batchUpdateLoop err now l₁ s).store).store }) := by
  constructor
  · intro s req v hv
    refine ⟨{ updated := (batchUpdateLoop err now v.updates s).updated,
              failed := (batchUpdateLoop err now v.updates s).failed },
            (batchUpdateLoop err now v.updates s).store, ?_⟩
    unfold batchUpdateRequestStatuses
    rw [hv]
  · intro l₁ l₂ u s hfail
    rw [batchUpdateLoop_append err now l₁ (u :: l₂) s]
    rcases hfail with he | hl
    · rw [batchUpdateLoop_cons_err err now u l₂ _ he]
    · by_cases he : err u.id = true
      · rw [batchUpdateLoop_cons_err err now u l₂ _ he]
      · rw [batchUpdateLoop_cons_notFound err now u l₂ _
          (by simpa using he) hl]

theorem batchUpdate_isolates_per_item_failure_witness :
    batchUpdateLoop errNone 0 [{ id := "a", status := RequestStatus.approved }] [] =
      { updated := [], failed := ["a"], store := [] } :=
  (batchUpdate_isolates_per_item_failure errNone 0).2 [] []
    { id := "a", status := RequestStatus.approved } [] (Or.inr rfl)

/-- C7: for page size P, 1-indexed page k and N records matching the
(optional) status filter, getItemRequests returns exactly
min P (N - (k-1)*P) records (truncated subtraction realizes max 0 ...)
sorted by creation date descending, together with the total matching count
N; a page beyond the range yields the empty list, not an error. -/
theorem getItemRequests_pagination (pageSize k : Nat) (status : Option String)
    (s : Store) (hk : 1 ≤ k) :
    (getItemRequests pageSize k status s).requests.length =
      min pageSize
        ((s.filter (fun p => matchStatus status p.2)).length -
          (k - 1) * pageSize) ∧
    (getItemRequests pageSize k status s).totalCount =
      (s.filter (fun p => matchStatus status p.2)).length ∧
    List.Pairwise
      (fun a b : ItemRequest => b.requestCreatedDate ≤ a.requestCreatedDate)
      (getItemRequests pageSize k status s).requests ∧
    ((s.filter (fun p => matchStatus status p.2)).length ≤
        (k - 1) * pageSize →
      (getItemRequests pageSize k status s).requests = []) := by
  have hlen : (getItemRequests pageSize k status s).requests.length =
      min pageSize
        ((s.filter (fun p => matchStatus status p.2)).length -
          (k - 1) * pageSize) := by
    show ((((sortByDateDesc
        (s.filter (fun p => matchStatus status p.2))).drop
          ((k - 1) * pageSize)).take pageSize).map
        (fun p : String × DBRecord => toItemRequest p.1 p.2)).length = _
    rw [List.length_map, List.length_take, List.length_drop,
      length_sortByDateDesc]
  refine ⟨hlen, rfl, ?_, ?_⟩
  · exact ((pairwise_sortByDateDesc
        (s.filter (fun p => matchStatus status p.2))).sublist
        ((List.take_sublist _ _).trans (List.drop_sublist _ _))).map
      (fun p : String × DBRecord => toItemRequest p.1 p.2)
      (fun a b h => h)
  · intro hN
    apply List.eq_nil_of_length_eq_zero
    rw [hlen, Nat.sub_eq_zero_of_le hN, Nat.min_zero]

theorem getItemRequests_pagination_witness :
    (getItemRequests 2 2 none
        [("a",
          { requestorName := "n", itemRequested := "i",
            requestCreatedDate := 5, lastEditedDate := none,
            status := RequestStatus.pending }),
         ("b",
          { requestorName := "n", itemRequested := "i",
            requestCreatedDate := 9, lastEditedDate := none,
            status := RequestStatus.approved }),
         ("c",
          { requestorName := "n", itemRequested := "i",
            requestCreatedDate := 7, lastEditedDate := none,
            status := RequestStatus.pending })]).requests.length = 1 := by
  have h := (getItemRequests_pagination 2 2 none
    [("a",
      { requestorName := "n", itemRequested := "i",
        requestCreatedDate := 5, lastEditedDate := none,
        status := RequestStatus.pending }),
     ("b",
      { requestorName := "n", itemRequested := "i",
        requestCreatedDate := 9, lastEditedDate := none,
        status := RequestStatus.approved }),
     ("c",
      { requestorName := "n", itemRequested := "i",
        requestCreatedDate := 7, lastEditedDate := none,
        status := RequestStatus.pending })] (by decide)).1
  simpa using h

/-- C8: once a batch delete passes validation each identifier is processed
independently with deletedCount + len(failed) = len(ids); an identifier at
which the driver raises any error, or which resolves to no document, is
appended to failed in processing position without touching deletedCount
while the remaining identifiers are still processed; a successful deletion
increments deletedCount; and an identifier present in the store is counted
in deletedCount by a first singleton batch call and reported in failed
(not found) by a second identical call on the resulting store. -/
theorem batchDelete_independent_counts (err : String → Bool) :
    (∀ (s : Store) (req : RawBatchDelete) (v : BatchDeleteRequest),
        validateBatchDeleteRequest req = some v →
        ∃ res s2, batchDeleteRequests err s req = (Except.ok res, s2) ∧
          res.deletedCount + res.failed.length = v.ids.length) ∧
    (∀ (l₁ l₂ : List String) (id : String) (s : Store),
        (err id = true ∨
          lookupStore id (batchDeleteLoop err l₁ s).store = none) →
        batchDeleteLoop err (l₁ ++ id :: l₂) s =
          { deletedCount := (batchDeleteLoop err l₁ s).deletedCount +
              (batchDeleteLoop err l₂
                (batchDeleteLoop err l₁ s).store).deletedCount
            failed := (batchDeleteLoop err l₁ s).failed ++
              id :: (batchDeleteLoop err l₂
                (batchDeleteLoop err l₁ s).store).failed
            store := (batchDeleteLoop err l₂
              (batchDeleteLoop err l₁ s).store).store }) ∧
    (∀ (l₁ l₂ : List String) (id : String) (s : Store) (r : DBRecord),
        err id = false →
        lookupStore id (batchDeleteLoop err l₁ s).store = some r →
        batchDeleteLoop err (l₁ ++ id :: l₂) s =
          { deletedCount := (batchDeleteLoop err l₁ s).deletedCount +
              ((batchDeleteLoop err l₂ (storeDelete id
                (batchDeleteLoop err l₁ s).store)).deletedCount + 1)
            failed := (batchDeleteLoop err l₁ s).failed ++
              (batchDeleteLoop err l₂ (storeDelete id
                (batchDeleteLoop err l₁ s).store)).failed
            store := (batchDeleteLoop err l₂ (storeDelete id
              (batchDeleteLoop err l₁ s).store)).store }) ∧
    (∀ (s : Store) (id : String) (r : DBRecord),
        err id = false → lookupStore id s = some r → jsTrim id = id →
        id ≠ "" →
        batchDeleteRequests err s { ids := some [JVal.jstr id] } =
          (Except.ok { deletedCount := 1, failed := [] },
            storeDelete id s) ∧
        batchDeleteRequests err (storeDelete id s)
            { ids := some [JVal.jstr id] } =
          (Except.ok { deletedCount := 0, failed := [id] },
            storeDelete id s)) := by
  refine ⟨?_, ?_, ?_, ?_⟩
  · intro s req v hv
    refine ⟨{ deletedCount := (batchDeleteLoop err v.ids s).deletedCount,
              failed := (batchDeleteLoop err v.ids s).failed },
            (batchDeleteLoop err v.ids s).store, ?_, ?_⟩
    · unfold batchDeleteRequests
      rw [hv]
    · exact batchDeleteLoop_length err v.ids s
  · intro l₁ l₂ id s hfail
    rw [batchDeleteLoop_append err l₁ (id :: l₂) s]
    rcases hfail with he | hl
    · rw [batchDeleteLoop_cons_err err id l₂ _ he]
    · by_cases he : err id = true
      · rw [batchDeleteLoop_cons_err err id l₂ _ he]
      · rw [batchDeleteLoop_cons_notFound err id l₂ _
          (Bool.not_eq_true _ ▸ he) hl]
  · intro l₁ l₂ id s r he hl
    rw [batchDeleteLoop_append err l₁ (id :: l₂) s,
      batchDeleteLoop_cons_found err id l₂ _ r he hl]
  · intro s id r he hl hid hne
    have hval : validateBatchDeleteRequest { ids := some [JVal.jstr id] } =
        some { ids := [id] } := by
      simp only [validateBatchDeleteRequest, validateIdsLoop]
      rw [hid]
      rw [if_neg hne]
      simp
    constructor
    · unfold batchDeleteRequests
      simp only [hval]
      rw [batchDeleteLoop_cons_found err id [] s r he hl]
      rfl
    · unfold batchDeleteRequests
      simp only [hval]
      rw [batchDeleteLoop_cons_notFound err id [] (storeDelete id s) he
        (lookupStore_storeDelete_self id s)]
      rfl

theorem batchDelete_independent_counts_witness :
    batchDeleteLoop (fun i => i == "x") ["x"] [] =
      { deletedCount := 0, failed := ["x"], store := [] } ∧
    batchDeleteRequests errNone
        [("a",
          { requestorName := "n", itemRequested := "i",
            requestCreatedDate := 1, lastEditedDate := none,
            status := RequestStatus.pending })]
        { ids := some [JVal.jstr "a"] } =
      (Except.ok { deletedCount := 1, failed := [] },
        storeDelete "a"
          [("a",
            { requestorName := "n", itemRequested := "i",
              requestCreatedDate := 1, lastEditedDate := none,
              status := RequestStatus.pending })]) ∧
    batchDeleteRequests errNone
        (storeDelete "a"
          [("a",
            { requestorName := "n", itemRequested := "i",
              requestCreatedDate := 1, lastEditedDate := none,
              status := RequestStatus.pending })])
        { ids := some [JVal.jstr "a"] } =
      (Except.ok { deletedCount := 0, failed := ["a"] },
        storeDelete "a"
          [("a",
            { requestorName := "n", itemRequested := "i",
              requestCreatedDate := 1, lastEditedDate := none,
              status := RequestStatus.pending })]) :=
  ⟨(batchDelete_independent_counts (fun i => i == "x")).2.1 [] [] "x" []
      (Or.inl rfl),
   (batchDelete_independent_counts errNone).2.2.2
    [("a",
      { requestorName := "n", itemRequested := "i",
        requestCreatedDate := 1, lastEditedDate := none,
        status := RequestStatus.pending })]
    "a"
    { requestorName := "n", itemRequested := "i",
      requestCreatedDate := 1, lastEditedDate := none,
      status := RequestStatus.pending }
    rfl rfl rfl (by decide)⟩

/-- C10: validation trims identifiers before use: validated batch update and
batch delete identifier lists are the character-wise trimmed forms of the
supplied ones, the batch loops run on (and report in failed) those trimmed
identifiers only, and a trimmed identifier can differ from the supplied
one. -/
theorem validation_trims_identifiers :
    (∀ (req : RawBatchEdit) (l : List RawEditStatus)
        (v : BatchEditStatusRequest),
        req.updates = some l → validateBatchEditStatusRequest req = some v →
        List.Forall₂
          (fun (raw : RawEditStatus) (vu : EditStatusRequest) =>
            ∃ s, raw.id = some (JVal.jstr s) ∧ vu.id = jsTrim s)
          l v.updates) ∧
    (∀ (req : RawBatchDelete) (l : List JVal) (v : BatchDeleteRequest),
        req.ids = some l → validateBatchDeleteRequest req = some v →
        List.Forall₂
          (fun (raw : JVal) (i : String) =>
            ∃ s, raw = JVal.jstr s ∧ i = jsTrim s)
          l v.ids) ∧
    (∀ (err : String → Bool) (now : Nat) (s : Store) (req : RawBatchEdit)
        (v : BatchEditStatusRequest) (res : BatchUpdateResult) (s2 : Store),
        validateBatchEditStatusRequest req = some v →
        batchUpdateRequestStatuses err now s req = (Except.ok res, s2) →
        ∀ x ∈ res.failed, x ∈ v.updates.map EditStatusRequest.id) ∧
    (∀ (err : String → Bool) (s : Store) (req : RawBatchDelete)
        (v : BatchDeleteRequest) (res : BatchDeleteResult) (s2 : Store),
        validateBatchDeleteRequest req = some v →
        batchDeleteRequests err s req = (Except.ok res, s2) →
        ∀ x ∈ res.failed, x ∈ v.ids) ∧
    (validateEditStatusRequest
        { id := some (JVal.jstr " x "),
          status := some (JVal.jstr "pending") } =
      some { id := "x", status := RequestStatus.pending } ∧
      (" x " : String) ≠ "x") := by
  refine ⟨?_, ?_, ?_, ?_, rfl, by decide⟩
  · intro req l v hl hv
    unfold validateBatchEditStatusRequest at hv
    simp only [hl] at hv
    by_cases h0 : l.length = 0
    · simp [h0] at hv
    · rw [if_neg h0] at hv
      cases hloop : validateUpdatesLoop l with
      | none => rw [hloop] at hv; cases hv
      | some vs =>
        rw [hloop] at hv
        injection hv with hv
        rw [← hv]
        exact validateUpdatesLoop_forall₂ hloop
  · intro req l v hl hv
    unfold validateBatchDeleteRequest at hv
    simp only [hl] at hv
    by_cases h0 : l.length = 0
    · simp [h0] at hv
    · rw [if_neg h0] at hv
      cases hloop : validateIdsLoop l with
      | none => rw [hloop] at hv; cases hv
      | some vs =>
        rw [hloop] at hv
        injection hv with hv
        rw [← hv]
        exact validateIdsLoop_forall₂ hloop
  · intro err now s req v res s2 hv h x hx
    unfold batchUpdateRequestStatuses at h
    simp only [hv, Prod.mk.injEq] at h
    obtain ⟨h1, h2⟩ := h
    injection h1 with h1
    rw [← h1] at hx
    have hx2 : x ∈ (batchUpdateLoop err now v.updates s).failed := hx
    exact (batchUpdateLoop_failed_sublist err now v.updates s).subset hx2
  · intro err s req v res s2 hv h x hx
    unfold batchDeleteRequests at h
    simp only [hv, Prod.mk.injEq] at h
    obtain ⟨h1, h2⟩ := h
    injection h1 with h1
    rw [← h1] at hx
    have hx2 : x ∈ (batchDeleteLoop err v.ids s).failed := hx
    exact (batchDeleteLoop_failed_sublist err v.ids s).subset hx2

theorem validation_trims_identifiers_witness :
    List.Forall₂
      (fun (raw : RawEditStatus) (vu : EditStatusRequest) =>
        ∃ s, raw.id = some (JVal.jstr s) ∧ vu.id = jsTrim s)
      [{ id := some (JVal.jstr " a "),
         status := some (JVal.jstr "pending") }]
      [{ id := "a", status := RequestStatus.pending }] :=
  validation_trims_identifiers.1
    { updates := some [{ id := some (JVal.jstr " a "),
                         status := some (JVal.jstr "pending") }] }
    [{ id := some (JVal.jstr " a "), status := some (JVal.jstr "pending") }]
    { updates := [{ id := "a", status := RequestStatus.pending }] }
    rfl rfl

theorem validateCreateItemRequest_inv {req : RawCreate}
    {v : CreateItemRequest} (h : validateCreateItemRequest req = some v) :
    ∃ nm it, req.requestorName = some (JVal.jstr nm) ∧
      req.itemRequested = some (JVal.jstr it) ∧
      jsTrim nm ≠ "" ∧ 3 ≤ nm.length ∧ nm.length ≤ 30 ∧
      jsTrim it ≠ "" ∧ 2 ≤ it.length ∧ it.length ≤ 100 ∧
      v = { requestorName := jsTrim nm, itemRequested := jsTrim it } := by
  unfold validateCreateItemRequest at h
  split at h
  · cases h
  · split at h
    · next nv iv hnv hiv =>
      split at h
      · cases h
      · next hvalid =>
        split at h
        · next nm it2 =>
          injection h with h
          simp [isValidString] at hvalid
          obtain ⟨⟨⟨ha1, ha2⟩, ha3⟩, ⟨hb1, hb2⟩, hb3⟩ := hvalid
          exact ⟨nm, it2, hnv, hiv, ha1, ha2, ha3, hb1, hb2, hb3, h.symm⟩
        · cases h
    · cases h

theorem validateCreateItemRequest_jstr_some (nm it : String)
    (h1 : nm ≠ "") (h2 : it ≠ "") (h3 : jsTrim nm ≠ "")
    (h4 : 3 ≤ nm.length) (h5 : nm.length ≤ 30)
    (h6 : jsTrim it ≠ "") (h7 : 2 ≤ it.length) (h8 : it.length ≤ 100) :
    validateCreateItemRequest
        { requestorName := some (JVal.jstr nm),
          itemRequested := some (JVal.jstr it) } =
      some { requestorName := jsTrim nm, itemRequested := jsTrim it } := by
  simp [validateCreateItemRequest, truthy, isValidString,
    h1, h2, h3, h4, h5, h6, h7, h8]

/-- C5 counterexample: a requestorName of 31 characters whose trimmed form
has exactly 30 characters (in bounds per the claim) is rejected by
createNewRequest with the InvalidInputError, because isValidString checks
the bounds against the UNtrimmed length. -/
theorem createNewRequest_trimmed_bounds_cex :
    (jsTrim "aaaaaaaaaaaaaaaaaaaaaaaaaaaaaa ").length = 30 ∧
    (jsTrim "ab").length = 2 ∧
    (createNewRequest 0 "id1" []
        { requestorName :=
            some (JVal.jstr "aaaaaaaaaaaaaaaaaaaaaaaaaaaaaa "),
          itemRequested := some (JVal.jstr "ab") }).1 =
      Except.error (OpError.invalidInputError "created item request") :=
  ⟨by decide, by decide, rfl⟩

/-- C5 amended: createNewRequest accepts exactly when requestorName is a
string whose untrimmed length is 3..30 AND whose trimmed length is 3..30,
and itemRequested is a string whose untrimmed length is 2..100 and trimmed
length 2..100 (the validator checks the bounds on the untrimmed strings,
the schema on the trimmed ones); on success the stored and returned record
holds the trimmed values. -/
theorem createNewRequest_acceptance (now : Nat) (newId : String) (s : Store)
    (req : RawCreate) :
    ((∃ r s2, createNewRequest now newId s req = (Except.ok r, s2)) ↔
      (∃ nm it, req.requestorName = some (JVal.jstr nm) ∧
        req.itemRequested = some (JVal.jstr it) ∧
        3 ≤ nm.length ∧ nm.length ≤ 30 ∧
        3 ≤ (jsTrim nm).length ∧ (jsTrim nm).length ≤ 30 ∧
        2 ≤ it.length ∧ it.length ≤ 100 ∧
        2 ≤ (jsTrim it).length ∧ (jsTrim it).length ≤ 100)) ∧
    (∀ r s2, createNewRequest now newId s req = (Except.ok r, s2) →
      ∃ nm it, req.requestorName = some (JVal.jstr nm) ∧
        req.itemRequested = some (JVal.jstr it) ∧
        r = toItemRequest newId
          { requestorName := jsTrim nm, itemRequested := jsTrim it,
            requestCreatedDate := now, lastEditedDate := some now,
            status := RequestStatus.pending } ∧
        s2 = s ++ [(newId,
          { requestorName := jsTrim nm, itemRequested := jsTrim it,
            requestCreatedDate := now, lastEditedDate := some now,
            status := RequestStatus.pending })]) := by
  constructor
  · constructor
    · rintro ⟨r, s2, h⟩
      unfold createNewRequest at h
      cases hval : validateCreateItemRequest req with
      | none => rw [hval] at h; simp at h
      | some v =>
        obtain ⟨nm, it, hnm, hit, ha1, ha2, ha3, hb1, hb2, hb3, hveq⟩ :=
          validateCreateItemRequest_inv hval
        by_cases hs : schemaAccepts v.requestorName v.itemRequested
        · subst hveq
          simp [schemaAccepts, jsTrim_idem] at hs
          obtain ⟨⟨⟨hs1, hs2⟩, hs3⟩, hs4⟩ := hs
          exact ⟨nm, it, hnm, hit, ha2, ha3, hs1, hs2, hb2, hb3, hs3, hs4⟩
        · simp only [hval] at h
          rw [if_neg hs] at h
          simp at h
    · rintro ⟨nm, it, hnm, hit, hu1, hu2, ht1, ht2, hv1, hv2, hw1, hw2⟩
      have h1 : nm ≠ "" := by
        intro hh
        rw [hh] at hu1
        have h0 : ("" : String).length = 0 := rfl
        omega
      have h2 : it ≠ "" := by
        intro hh
        rw [hh] at hv1
        have h0 : ("" : String).length = 0 := rfl
        omega
      have h3 : jsTrim nm ≠ "" := by
        intro hh
        rw [hh] at ht1
        have h0 : ("" : String).length = 0 := rfl
        omega
      have h6 : jsTrim it ≠ "" := by
        intro hh
        rw [hh] at hw1
        have h0 : ("" : String).length = 0 := rfl
        omega
      have hreq : req =
          { requestorName := some (JVal.jstr nm),
            itemRequested := some (JVal.jstr it) } := by
        cases req
        simp_all
      subst hreq
      have hval := validateCreateItemRequest_jstr_some nm it
        h1 h2 h3 hu1 hu2 h6 hv1 hv2
      have hschema : schemaAccepts (jsTrim nm) (jsTrim it) = true := by
        simp [schemaAccepts, jsTrim_idem, ht1, ht2, hw1, hw2]
      refine ⟨toItemRequest newId
          { requestorName := jsTrim nm, itemRequested := jsTrim it,
            requestCreatedDate := now, lastEditedDate := some now,
            status := RequestStatus.pending },
        s ++ [(newId,
          { requestorName := jsTrim nm, itemRequested := jsTrim it,
            requestCreatedDate := now, lastEditedDate := some now,
            status := RequestStatus.pending })], ?_⟩
      unfold createNewRequest
      simp only [hval]
      rw [if_pos hschema]
  · intro r s2 h
    unfold createNewRequest at h
    cases hval : validateCreateItemRequest req with
    | none => rw [hval] at h; simp at h
    | some v =>
      obtain ⟨nm, it, hnm, hit, ha1, ha2, ha3, hb1, hb2, hb3, hveq⟩ :=
        validateCreateItemRequest_inv hval
      by_cases hs : schemaAccepts v.requestorName v.itemRequested
      · simp only [hval, hs, if_true, Prod.mk.injEq] at h
        obtain ⟨hr, hs2⟩ := h
        injection hr with hr
        subst hveq
        exact ⟨nm, it, hnm, hit, hr.symm, hs2.symm⟩
      · simp only [hval] at h
        rw [if_neg hs] at h
        simp at h

theorem createNewRequest_acceptance_witness :
    ∃ r s2,
      createNewRequest 5 "id1" []
          { requestorName := some (JVal.jstr "Jane Doe"),
            itemRequested := some (JVal.jstr "Flashlights") } =
        (Except.ok r, s2) :=
  (createNewRequest_acceptance 5 "id1" []
      { requestorName := some (JVal.jstr "Jane Doe"),
        itemRequested := some (JVal.jstr "Flashlights") }).1.mpr
    ⟨"Jane Doe", "Flashlights", rfl, rfl, by decide, by decide, by decide,
      by decide, by decide, by decide, by decide, by decide⟩
